import Mathlib

/-!
Shallow embedding of the `sinjoh` asset decoders (NARC container reader,
area-data, BDHC, land-data, map-prop-material-shapes, area-light) together
with theorems checking the natural-language specification against the code.

Bytes are modelled as `Nat` values (each expected `< 256`); multi-byte
integers are assembled little-endian exactly as the source does via the
`byteorder` crate.
-/

namespace Sinjoh

/-- Little-endian 16-bit read from two bytes. -/
def u16le (b0 b1 : Nat) : Nat := b0 + b1 * 256

/-- Little-endian 32-bit read from four bytes. -/
def u32le (b0 b1 b2 b3 : Nat) : Nat :=
  b0 + b1 * 256 + b2 * 65536 + b3 * 16777216

/-- Reads `n` bytes at position `pos`; fails (like `read_exact`) when the
buffer does not hold that many bytes from `pos` on. -/
def readBytes (data : List Nat) (pos n : Nat) : Option (List Nat) :=
  if pos + n ≤ data.length then some ((data.drop pos).take n) else none

/-- Reads a little-endian `u16` at `pos`. -/
def readU16 (data : List Nat) (pos : Nat) : Option Nat :=
  match readBytes data pos 2 with
  | some [b0, b1] => some (u16le b0 b1)
  | _ => none

/-- Reads a little-endian `u32` at `pos`. -/
def readU32 (data : List Nat) (pos : Nat) : Option Nat :=
  match readBytes data pos 4 with
  | some [b0, b1, b2, b3] => some (u32le b0 b1 b2 b3)
  | _ => none

/-- Two's-complement reinterpretation of a 32-bit unsigned value. -/
def toSigned32 (n : Nat) : Int :=
  if n < 2 ^ 31 then (n : Int) else (n : Int) - 2 ^ 32

/-- Two's-complement reinterpretation of a 16-bit unsigned value. -/
def toSigned16 (n : Nat) : Int :=
  if n < 2 ^ 15 then (n : Int) else (n : Int) - 2 ^ 16

instance {ε α : Type} [DecidableEq ε] [DecidableEq α] :
    DecidableEq (Except ε α) := fun x y =>
  match x, y with
  | .error e, .error f =>
    if h : e = f then .isTrue (by rw [h])
    else .isFalse (by intro hc; cases hc; exact h rfl)
  | .ok a, .ok b =>
    if h : a = b then .isTrue (by rw [h])
    else .isFalse (by intro hc; cases hc; exact h rfl)
  | .error _, .ok _ => .isFalse (by intro hc; cases hc)
  | .ok _, .error _ => .isFalse (by intro hc; cases hc)

/-! ## Numeric primitives (`sinjoh_nds/src/lib.rs`)

`DsFixed32` is the `fixed` crate's `I20F12`: a raw `i32` bit pattern whose
value is `raw / 4096`. The value denoted by a raw pattern is modelled as a
rational. -/

/-- The rational value denoted by a `DsFixed32` raw bit pattern:
`raw / 2^12`. -/
def dsFixed32ToRat (raw : Int) : ℚ := (raw : ℚ) / 4096

/-- Model of IEEE 754 binary32 (`f32`) exact representability of a
rational: some significand `m` with `|m| < 2^24` and binary exponent `e`
within the finite range of the format denote it exactly. `to_num::<f32>`
can return a value equal to `q` only when this holds. -/
def float32Representable (q : ℚ) : Prop :=
  ∃ m e : ℤ, |m| < 2 ^ 24 ∧ -149 ≤ e ∧ e ≤ 104 ∧ q = (m : ℚ) * 2 ^ e

/-! ## Area data (`sinjoh_plat/src/area_data.rs`) -/

/-- `AreaData`: four `u16` ids parsed from an 8-byte record. -/
structure AreaData where
  map_prop_archives_id : Nat
  map_texture_archive_id : Nat
  area_light_archive_id : Nat
  dummy : Nat
  deriving Repr, DecidableEq

namespace AreaData

/-- `AreaData::from_bytes`: little-endian `u16` fields at offsets 0, 2, 6
and 4 (in the source's own field-assignment order). Defined on an 8-byte
list; `none` when the list is not 8 bytes (the Rust signature makes this
impossible by typing). -/
def from_bytes (bytes : List Nat) : Option AreaData :=
  match bytes with
  | [b0, b1, b2, b3, b4, b5, b6, b7] =>
    some { map_prop_archives_id := u16le b0 b1
           map_texture_archive_id := u16le b2 b3
           area_light_archive_id := u16le b6 b7
           dummy := u16le b4 b5 }
  | _ => none

end AreaData

/-! ## NARC container reader (`sinjoh_nds/src/narc/reader.rs`, `mod.rs`) -/

/-- `NarcFileAllocationTableEntry`: half-open byte range of one member. -/
structure NarcFileAllocationTableEntry where
  start_address : Nat
  end_address : Nat
  deriving Repr, DecidableEq

/-- `NarcFileAllocationTableBlock` (FATB chunk contents). -/
structure NarcFileAllocationTableBlock where
  chunk_size : Nat
  number_of_files : Nat
  files : List NarcFileAllocationTableEntry
  deriving Repr, DecidableEq

/-- `NarcFileImageBlock` (FIMG chunk descriptor): payload start position. -/
structure NarcFileImageBlock where
  chunk_size : Nat
  img_position : Nat
  deriving Repr, DecidableEq

/-- `NarcHeader`: parsed archive descriptor (byte order as `Option Bool`,
`true` = little-endian). -/
structure NarcHeader where
  byte_order : Option Bool
  version : Nat
  file_size : Nat
  narc_header_size : Nat
  number_of_chunks : Nat
  fat : Option NarcFileAllocationTableBlock
  fnt : Option Nat
  files : Option NarcFileImageBlock
  deriving Repr, DecidableEq

/-- Errors of `NarcReader` relevant to member access. -/
inductive NarcReaderError where
  | fileReadError
  | fileSeekError
  | fatBlockNotFound
  | fimgBlockNotFound
  | fileNotFound (index : Nat)
  | fileTooLarge (index : Nat) (size : Nat)
  deriving Repr, DecidableEq

/-- A `NarcReader`: the underlying file bytes, the current stream position
of the buffered handle, and the parsed header. -/
structure NarcReader where
  data : List Nat
  pos : Nat
  narc_header : NarcHeader
  deriving Repr, DecidableEq

namespace NarcReader

/-- `NarcReader::get_file`: look up the FAT entry, seek to
`img_position + start_address`, read `end_address - start_address` bytes.
The subtraction is the release-mode wrapping `u32` subtraction; the seek
moves the handle, so the updated reader is returned alongside the result
(on a short read the handle is left at the seek target). -/
def get_file (r : NarcReader) (index : Nat) :
    Except NarcReaderError (List Nat) × NarcReader :=
  match r.narc_header.fat with
  | none => (.error .fatBlockNotFound, r)
  | some fat =>
    match fat.files.get? index with
    | none => (.error (.fileNotFound index), r)
    | some fat_entry =>
      match r.narc_header.files with
      | none => (.error .fimgBlockNotFound, r)
      | some files =>
        let file_size :=
          (fat_entry.end_address + 2 ^ 32 - fat_entry.start_address) % 2 ^ 32
        let start_seek_pos := files.img_position + fat_entry.start_address
        match readBytes r.data start_seek_pos file_size with
        | some file => (.ok file, { r with pos := start_seek_pos + file_size })
        | none => (.error .fileReadError, { r with pos := start_seek_pos })

end NarcReader

/-! ## Sequential byte-cursor helpers -/

/-- Little-endian `u16` out of a fixed-size byte array at offset `off`
(the Rust sources index `[u8; N]` arrays at literal offsets). -/
def u16leAt (c : List Nat) (off : Nat) : Nat :=
  u16le (c.getD off 0) (c.getD (off + 1) 0)

/-- Little-endian `u32` out of a fixed-size byte array at offset `off`. -/
def u32leAt (c : List Nat) (off : Nat) : Nat :=
  u32le (c.getD off 0) (c.getD (off + 1) 0) (c.getD (off + 2) 0)
    (c.getD (off + 3) 0)

/-- Signed 32-bit fixed-point raw value out of a byte array at `off`
(`DsFixed32::from_le_bytes`): the raw two's-complement bit pattern. -/
def fixed32At (c : List Nat) (off : Nat) : Int :=
  toSigned32 (u32leAt c off)

/-- A 3-vector of raw signed values (`DsVecFixed32` / `DsVecFixed16`,
components kept as raw fixed-point bit patterns). -/
structure Vec3I where
  x : Int
  y : Int
  z : Int
  deriving Repr, DecidableEq

/-- Runs the element reader `rd` `n` times in sequence from `pos`,
failing as soon as one element read fails (each loop body in the sources
is a `read_exact` followed by a `from_bytes`). -/
def readN {α : Type} (rd : List Nat → Nat → Option (α × Nat))
    (data : List Nat) : Nat → Nat → Option (List α × Nat)
  | 0, pos => some ([], pos)
  | n + 1, pos =>
    match rd data pos with
    | none => none
    | some (a, pos') =>
      match readN rd data n pos' with
      | none => none
      | some (as, pos'') => some (a :: as, pos'')

/-- `readN` always yields exactly `n` elements on success. -/
theorem readN_length {α : Type} (rd : List Nat → Nat → Option (α × Nat))
    (data : List Nat) :
    ∀ n pos as pos', readN rd data n pos = some (as, pos') → as.length = n := by
  intro n
  induction n with
  | zero =>
    intro pos as pos' h
    simp only [readN] at h
    cases h
    rfl
  | succ k ih =>
    intro pos as pos' h
    rw [readN] at h
    cases hrd : rd data pos with
    | none => rw [hrd] at h; cases h
    | some apos =>
      obtain ⟨a, posA⟩ := apos
      rw [hrd] at h
      dsimp only at h
      cases hrest : readN rd data k posA with
      | none => rw [hrest] at h; cases h
      | some aspos =>
        obtain ⟨bs, pos2⟩ := aspos
        rw [hrest] at h
        simp only [Option.some.injEq, Prod.mk.injEq] at h
        obtain ⟨h1, _⟩ := h
        subst h1
        simp [ih posA bs pos2 hrest]

/-! ## BDHC decoder (`sinjoh_plat/src/bdhc.rs`) -/

/-- `BDHC_MAGIC`: "BDHC" read as a little-endian `u32`. -/
def BDHC_MAGIC : Nat := 0x43484442

/-- `BdhcHeader`: the six section counts. -/
structure BdhcHeader where
  points_count : Nat
  normals_count : Nat
  constants_count : Nat
  plates_count : Nat
  strips_count : Nat
  access_list_count : Nat
  deriving Repr, DecidableEq

namespace BdhcHeader

/-- `BdhcHeader::from_bytes`: six little-endian `u16` counts at offsets
0, 2, 4, 6, 8, 10 of a 12-byte array. -/
def from_bytes (c : List Nat) : BdhcHeader :=
  { points_count := u16leAt c 0
    normals_count := u16leAt c 2
    constants_count := u16leAt c 4
    plates_count := u16leAt c 6
    strips_count := u16leAt c 8
    access_list_count := u16leAt c 10 }

end BdhcHeader

/-- `BdhcPoint`: raw fixed-point `(x, z)`. -/
structure BdhcPoint where
  x : Int
  z : Int
  deriving Repr, DecidableEq

/-- `BdhcPlate`: four `u16` indices. -/
structure BdhcPlate where
  first_point_index : Nat
  second_point_index : Nat
  normal_index : Nat
  constant_index : Nat
  deriving Repr, DecidableEq

/-- `BdhcStrip`: raw fixed-point scanline plus two `u16` fields. -/
structure BdhcStrip where
  scanline : Int
  access_list_element_count : Nat
  access_list_start_index : Nat
  deriving Repr, DecidableEq

/-- `BdhcError`. -/
inductive BdhcError where
  | readError
  | wrongBdhcMagic (found : Nat)
  deriving Repr, DecidableEq

/-- `Bdhc`: the six parsed sections. -/
structure Bdhc where
  points : List BdhcPoint
  normals : List Vec3I
  constants : List Int
  plates : List BdhcPlate
  strips : List BdhcStrip
  access_list : List Nat
  deriving Repr, DecidableEq

namespace Bdhc

/-- One point element: 8 bytes, `BdhcPoint::from_bytes`. -/
def readPointElem (data : List Nat) (pos : Nat) : Option (BdhcPoint × Nat) :=
  (readBytes data pos 8).map fun c =>
    ({ x := fixed32At c 0, z := fixed32At c 4 }, pos + 8)

/-- One normal element: 12 bytes, three fixed-point components. -/
def readNormalElem (data : List Nat) (pos : Nat) : Option (Vec3I × Nat) :=
  (readBytes data pos 12).map fun c =>
    ({ x := fixed32At c 0, y := fixed32At c 4, z := fixed32At c 8 }, pos + 12)

/-- One constant element: 4 bytes of fixed-point. -/
def readConstantElem (data : List Nat) (pos : Nat) : Option (Int × Nat) :=
  (readBytes data pos 4).map fun c => (fixed32At c 0, pos + 4)

/-- One plate element: 8 bytes, `BdhcPlate::from_bytes`. -/
def readPlateElem (data : List Nat) (pos : Nat) : Option (BdhcPlate × Nat) :=
  (readBytes data pos 8).map fun c =>
    ({ first_point_index := u16leAt c 0, second_point_index := u16leAt c 2,
       normal_index := u16leAt c 4, constant_index := u16leAt c 6 }, pos + 8)

/-- One strip element: 8 bytes, `BdhcStrip::from_bytes`. -/
def readStripElem (data : List Nat) (pos : Nat) : Option (BdhcStrip × Nat) :=
  (readBytes data pos 8).map fun c =>
    ({ scanline := fixed32At c 0, access_list_element_count := u16leAt c 4,
       access_list_start_index := u16leAt c 6 }, pos + 8)

/-- One access-list element: a little-endian `u16`. -/
def readAccessElem (data : List Nat) (pos : Nat) : Option (Nat × Nat) :=
  (readU16 data pos).map fun v => (v, pos + 2)

/-- `Bdhc::parse_bytes`: magic, 12-byte header of six counts, then the six
flat sections read sequentially. -/
def parse_bytes (bytes : List Nat) : Except BdhcError Bdhc :=
  match readU32 bytes 0 with
  | none => .error .readError
  | some magic =>
    if magic ≠ BDHC_MAGIC then .error (.wrongBdhcMagic magic)
    else
      match readBytes bytes 4 12 with
      | none => .error .readError
      | some raw_header =>
        let header := BdhcHeader.from_bytes raw_header
        match readN readPointElem bytes header.points_count 16 with
        | none => .error .readError
        | some (points, p1) =>
          match readN readNormalElem bytes header.normals_count p1 with
          | none => .error .readError
          | some (normals, p2) =>
            match readN readConstantElem bytes header.constants_count p2 with
            | none => .error .readError
            | some (constants, p3) =>
              match readN readPlateElem bytes header.plates_count p3 with
              | none => .error .readError
              | some (plates, p4) =>
                match readN readStripElem bytes header.strips_count p4 with
                | none => .error .readError
                | some (strips, p5) =>
                  match readN readAccessElem bytes
                      header.access_list_count p5 with
                  | none => .error .readError
                  | some (access_list, _) =>
                    .ok { points, normals, constants, plates, strips,
                          access_list }

end Bdhc

/-! ## Land data decoder (`sinjoh_plat/src/land_data.rs`) -/

/-- `TERRAIN_ATTRIBUTES_ELEM_SIZE`. -/
def TERRAIN_ATTRIBUTES_ELEM_SIZE : Nat := 2

/-- `MAP_PROPS_ELEM_SIZE`. -/
def MAP_PROPS_ELEM_SIZE : Nat := 48

/-- `LAND_DATA_HEADER_SIZE`. -/
def LAND_DATA_HEADER_SIZE : Nat := 16

/-- `TerrainAttributes`: unpacked behavior byte and collision bit. -/
structure TerrainAttributes where
  tile_behavior : Nat
  has_collision : Bool
  deriving Repr, DecidableEq

namespace TerrainAttributes

/-- `TerrainAttributes::from_raw`: low byte is the behavior, bit 15 the
collision flag. -/
def from_raw (raw_value : Nat) : TerrainAttributes :=
  { tile_behavior := raw_value &&& 0x00FF
    has_collision := raw_value &&& 0x8000 != 0 }

end TerrainAttributes

/-- `MapPropInstance`: one 48-byte packed prop placement. -/
structure MapPropInstance where
  map_prop_model_id : Nat
  position : Vec3I
  rotation : Vec3I
  scale : Vec3I
  dummy : Nat × Nat
  deriving Repr, DecidableEq

namespace MapPropInstance

/-- `MapPropInstance::from_bytes`: fixed offsets inside a 48-byte array. -/
def from_bytes (c : List Nat) : MapPropInstance :=
  { map_prop_model_id := u32leAt c 0
    position := { x := fixed32At c 4, y := fixed32At c 8, z := fixed32At c 12 }
    rotation := { x := fixed32At c 16, y := fixed32At c 20, z := fixed32At c 24 }
    scale := { x := fixed32At c 28, y := fixed32At c 32, z := fixed32At c 36 }
    dummy := (u32leAt c 40, u32leAt c 44) }

end MapPropInstance

/-- `LandDataError` (only the read and BDHC errors are reachable in this
byte-level model; the `TooBig` conversions cannot fail on 64-bit targets
and `Cursor` seeks to absolute positions never fail). -/
inductive LandDataError where
  | readError
  | seekError
  | terrainAttributesTooBig (size : Nat)
  | mapPropsTooBig (size : Nat)
  | mapModelTooBig (size : Nat)
  | bdhcTooBig (size : Nat)
  | bdhcParseError (e : BdhcError)
  | tileIndexTooBig (index : Nat)
  deriving Repr, DecidableEq

/-- `LandData`: the four decoded sections. -/
structure LandData where
  terrain_attributes : List TerrainAttributes
  map_props : List MapPropInstance
  map_model : List Nat
  bdhc : Bdhc
  deriving Repr, DecidableEq

namespace LandData

/-- One terrain-attributes element: a little-endian `u16` fed to
`TerrainAttributes::from_raw`. -/
def readTerrainElem (data : List Nat) (pos : Nat) :
    Option (TerrainAttributes × Nat) :=
  (readU16 data pos).map fun v => (TerrainAttributes.from_raw v, pos + 2)

/-- One map-prop element: 48 bytes fed to `MapPropInstance::from_bytes`. -/
def readMapPropElem (data : List Nat) (pos : Nat) :
    Option (MapPropInstance × Nat) :=
  (readBytes data pos MAP_PROPS_ELEM_SIZE).map fun c =>
    (MapPropInstance.from_bytes c, pos + MAP_PROPS_ELEM_SIZE)

/-- `LandData::parse_bytes`: read four `u32` section sizes, then the four
sections in order; `terrain_size / 2` terrain entries, `props_size / 48`
prop records, an opaque model blob, and a BDHC blob handed to
`Bdhc::parse_bytes`. -/
def parse_bytes (bytes : List Nat) : Except LandDataError LandData :=
  match readU32 bytes 0 with
  | none => .error .readError
  | some terrain_attributes_size =>
    match readU32 bytes 4 with
    | none => .error .readError
    | some map_props_size =>
      match readU32 bytes 8 with
      | none => .error .readError
      | some map_model_size =>
        match readU32 bytes 12 with
        | none => .error .readError
        | some bdhc_size =>
          let terrain_attributes_count :=
            terrain_attributes_size / TERRAIN_ATTRIBUTES_ELEM_SIZE
          let map_props_count := map_props_size / MAP_PROPS_ELEM_SIZE
          match readN readTerrainElem bytes terrain_attributes_count
              LAND_DATA_HEADER_SIZE with
          | none => .error .readError
          | some (terrain_attributes, _) =>
            match readN readMapPropElem bytes map_props_count
                (LAND_DATA_HEADER_SIZE + terrain_attributes_size) with
            | none => .error .readError
            | some (map_props, _) =>
              match readBytes bytes
                  (LAND_DATA_HEADER_SIZE + terrain_attributes_size +
                    map_props_size) map_model_size with
              | none => .error .readError
              | some map_model =>
                match readBytes bytes
                    (LAND_DATA_HEADER_SIZE + terrain_attributes_size +
                      map_props_size + map_model_size) bdhc_size with
                | none => .error .readError
                | some raw_bdhc =>
                  match Bdhc.parse_bytes raw_bdhc with
                  | .error e => .error (.bdhcParseError e)
                  | .ok bdhc =>
                    .ok { terrain_attributes, map_props, map_model, bdhc }

end LandData

/-! ## Map prop material & shapes decoder
(`sinjoh_plat/src/map_prop_material_shapes.rs`) -/

/-- `MapPropMaterialShapesLocators`: a (count, index) pair. -/
structure MapPropMaterialShapesLocators where
  ids_count : Nat
  ids_index : Nat
  deriving Repr, DecidableEq

/-- `MapPropMaterialShapesIDs`: a (material, shape) pair. -/
structure MapPropMaterialShapesIDs where
  material_id : Nat
  shape_id : Nat
  deriving Repr, DecidableEq

/-- `MapPropMaterialShapes`: a non-empty locator's slice of the ids
table, with its original start index. -/
structure MapPropMaterialShapes where
  ids_index : Nat
  ids : List MapPropMaterialShapesIDs
  deriving Repr, DecidableEq

/-- Outcome of `MapPropMaterialShapes::parse_bytes`, distinguishing the
returned `Err` (a buffer read error) from a process panic caused by the
unchecked slice `ids[start_index ..= end_index]`. -/
inductive MpmsOutcome where
  | ok (res : List (Option MapPropMaterialShapes))
  | readError
  | panicked
  deriving Repr, DecidableEq

namespace MapPropMaterialShapes

/-- One locator: two consecutive little-endian `u16` (count, index). -/
def readLocatorElem (data : List Nat) (pos : Nat) :
    Option (MapPropMaterialShapesLocators × Nat) :=
  (readBytes data pos 4).map fun c =>
    ({ ids_count := u16leAt c 0, ids_index := u16leAt c 2 }, pos + 4)

/-- One ids entry: two consecutive little-endian `u16`
(material, shape). -/
def readIdsElem (data : List Nat) (pos : Nat) :
    Option (MapPropMaterialShapesIDs × Nat) :=
  (readBytes data pos 4).map fun c =>
    ({ material_id := u16leAt c 0, shape_id := u16leAt c 2 }, pos + 4)

/-- The locator-to-slice projection loop of `parse_bytes`. For each
locator with `ids_count > 0` it takes `ids[ids_index ..= ids_index +
ids_count - 1]`; `none` models the panic of that unchecked slice when
`ids_index + ids_count` exceeds the ids table length. Empty locators
project to an absent entry. -/
def build (locs : List MapPropMaterialShapesLocators)
    (ids : List MapPropMaterialShapesIDs) :
    Option (List (Option MapPropMaterialShapes)) :=
  match locs with
  | [] => some []
  | l :: rest =>
    if 0 < l.ids_count then
      if l.ids_index + l.ids_count ≤ ids.length then
        (build rest ids).map fun out =>
          (some { ids_index := l.ids_index
                  ids := (ids.drop l.ids_index).take l.ids_count }) :: out
      else none
    else
      (build rest ids).map fun out => none :: out

/-- `MapPropMaterialShapes::parse_bytes`: `u16` locator count, `u16` ids
count, the locator table, the flat ids table, then the projection
loop. -/
def parse_bytes (bytes : List Nat) : MpmsOutcome :=
  match readU16 bytes 0 with
  | none => .readError
  | some locators_count =>
    match readU16 bytes 2 with
    | none => .readError
    | some ids_count =>
      match readN readLocatorElem bytes locators_count 4 with
      | none => .readError
      | some (locators, p1) =>
        match readN readIdsElem bytes ids_count p1 with
        | none => .readError
        | some (ids, _) =>
          match build locators ids with
          | none => .panicked
          | some res => .ok res

/-- Concatenation of the `ids` slices over the present (non-empty)
locator outputs. -/
def joinedIds (res : List (Option MapPropMaterialShapes)) :
    List MapPropMaterialShapesIDs :=
  ((res.filterMap id).map MapPropMaterialShapes.ids).flatten

/-- Boolean check that a locator list tiles the interval `[acc, total)`
in order: every non-empty locator starts exactly where the previous
coverage ended, and the coverage ends at `total`. -/
def tilesFrom (locs : List MapPropMaterialShapesLocators)
    (acc total : Nat) : Bool :=
  match locs with
  | [] => acc == total
  | l :: rest =>
    (l.ids_count == 0 || l.ids_index == acc) &&
      tilesFrom rest (acc + l.ids_count) total

/-- A tiling locator list never covers past `total`. -/
theorem tilesFrom_le (locs : List MapPropMaterialShapesLocators) :
    ∀ acc total, tilesFrom locs acc total = true → acc ≤ total := by
  induction locs with
  | nil =>
    intro acc total h
    simp only [tilesFrom, beq_iff_eq] at h
    omega
  | cons l rest ih =>
    intro acc total h
    simp only [tilesFrom, Bool.and_eq_true] at h
    have := ih (acc + l.ids_count) total h.2
    omega

/-- On a tiling locator list, `build` succeeds and the concatenated
slices rebuild exactly the ids table from `acc` on. -/
theorem build_tiles (ids : List MapPropMaterialShapesIDs)
    (locs : List MapPropMaterialShapesLocators) :
    ∀ acc, tilesFrom locs acc ids.length = true →
      ∃ out, build locs ids = some out ∧ joinedIds out = ids.drop acc := by
  induction locs with
  | nil =>
    intro acc h
    simp only [tilesFrom, beq_iff_eq] at h
    refine ⟨[], rfl, ?_⟩
    simp [joinedIds, h, List.drop_length]
  | cons l rest ih =>
    intro acc h
    simp only [tilesFrom, Bool.and_eq_true, Bool.or_eq_true, beq_iff_eq] at h
    obtain ⟨hfirst, hrest⟩ := h
    obtain ⟨out', hb', hj'⟩ := ih (acc + l.ids_count) hrest
    by_cases hc : 0 < l.ids_count
    · have hidx : l.ids_index = acc := by omega
      have hle : acc + l.ids_count ≤ ids.length := tilesFrom_le rest _ _ hrest
      refine ⟨(some { ids_index := l.ids_index
                      ids := (ids.drop l.ids_index).take l.ids_count }) :: out',
        ?_, ?_⟩
      · simp only [build, if_pos hc, hidx, if_pos hle, hb']
        rfl
      · simp only [joinedIds, List.filterMap_cons, id, List.map_cons,
          List.flatten_cons] at hj' ⊢
        rw [hj', hidx]
        have hdd : ids.drop (acc + l.ids_count) =
            (ids.drop acc).drop l.ids_count := by
          rw [List.drop_drop, Nat.add_comm]
        rw [hdd, List.take_append_drop]
    · have hc0 : l.ids_count = 0 := by omega
      refine ⟨none :: out', ?_, ?_⟩
      · simp only [build, if_neg hc, hb']
        rfl
      · simp only [joinedIds, List.filterMap_cons, id] at hj' ⊢
        rw [hj', hc0, Nat.add_zero]

/-- On any successful `build`, an output slot is absent exactly when its
locator's count is zero. -/
theorem build_isNone_map (ids : List MapPropMaterialShapesIDs)
    (locs : List MapPropMaterialShapesLocators) :
    ∀ out, build locs ids = some out →
      out.map Option.isNone = locs.map (fun l => l.ids_count == 0) := by
  induction locs with
  | nil =>
    intro out h
    simp only [build] at h
    cases h
    rfl
  | cons l rest ih =>
    intro out h
    simp only [build] at h
    by_cases hc : 0 < l.ids_count
    · rw [if_pos hc] at h
      by_cases hle : l.ids_index + l.ids_count ≤ ids.length
      · rw [if_pos hle] at h
        cases hb : build rest ids with
        | none => rw [hb] at h; cases h
        | some o' =>
          rw [hb] at h
          simp only [Option.map] at h
          cases h
          have hne : (l.ids_count == 0) = false := by
            rw [beq_eq_false_iff_ne]
            omega
          simp [ih o' hb, hne]
      · rw [if_neg hle] at h
        cases h
    · rw [if_neg hc] at h
      cases hb : build rest ids with
      | none => rw [hb] at h; cases h
      | some o' =>
        rw [hb] at h
        simp only [Option.map] at h
        cases h
        have h0 : l.ids_count = 0 := by omega
        simp [ih o' hb, h0]

/-- When every non-empty locator stays inside the ids table, `build`
cannot panic. -/
theorem build_isSome_of_bounds (ids : List MapPropMaterialShapesIDs)
    (locs : List MapPropMaterialShapesLocators)
    (h : ∀ l ∈ locs, 0 < l.ids_count →
      l.ids_index + l.ids_count ≤ ids.length) :
    ∃ out, build locs ids = some out := by
  induction locs with
  | nil => exact ⟨[], rfl⟩
  | cons l rest ih =>
    obtain ⟨o', hb⟩ := ih fun x hx => h x (List.mem_cons_of_mem l hx)
    by_cases hc : 0 < l.ids_count
    · have hle := h l (List.mem_cons_self l rest) hc
      refine ⟨(some { ids_index := l.ids_index
                      ids := (ids.drop l.ids_index).take l.ids_count }) :: o',
        ?_⟩
      simp only [build, if_pos hc, if_pos hle, hb]
      rfl
    · refine ⟨none :: o', ?_⟩
      simp only [build, if_neg hc, hb]
      rfl

end MapPropMaterialShapes

/-! ## Area light text decoder (`sinjoh_plat/src/area_light.rs`)

The decoder works line-by-line on UTF-8 text; it is embedded at the
character-list level, with Rust's `str::lines`, `str::split` and integer
`parse` modelled explicitly. -/

/-- `AreaLightBlockLine`: the nine-state block machine (`End` is named
`blockEnd` here). -/
inductive AreaLightBlockLine where
  | endTime
  | light0
  | light1
  | light2
  | light3
  | diffuseReflectColor
  | ambientReflectColor
  | specularReflectColor
  | emissionColor
  | blockEnd
  deriving Repr, DecidableEq

namespace AreaLightBlockLine

/-- `AreaLightBlockLine::next`. -/
def next : AreaLightBlockLine → AreaLightBlockLine
  | endTime => light0
  | light0 => light1
  | light1 => light2
  | light2 => light3
  | light3 => diffuseReflectColor
  | diffuseReflectColor => ambientReflectColor
  | ambientReflectColor => specularReflectColor
  | specularReflectColor => emissionColor
  | emissionColor => blockEnd
  | blockEnd => blockEnd

end AreaLightBlockLine

/-- `DsRgb`: three independent color bytes. -/
structure DsRgb where
  red : Nat
  green : Nat
  blue : Nat
  deriving Repr, DecidableEq

/-- `AreaLightError` (the `ParseIntError` payloads are dropped). -/
inductive AreaLightError where
  | conversionError
  | earlyEmptyLine (n : Nat)
  | blockParseOverrun
  | malformedBlockLine (line : AreaLightBlockLine) (n : Nat)
  | malformedLineParameter (line : AreaLightBlockLine) (n : Nat) (param : Nat)
  | notEnoughParameters (line : AreaLightBlockLine) (n : Nat)
  deriving Repr, DecidableEq

/-- `AreaLightProperties`: light color and raw fixed-point direction
(each component the parsed `i16` reinterpreted as a `DsFixed16` bit
pattern). -/
structure AreaLightProperties where
  color : DsRgb
  direction : Vec3I
  deriving Repr, DecidableEq

/-- `AreaLightBlock`. -/
structure AreaLightBlock where
  end_time : Nat
  light_0 : Option AreaLightProperties
  light_1 : Option AreaLightProperties
  light_2 : Option AreaLightProperties
  light_3 : Option AreaLightProperties
  diffuse_reflect_color : DsRgb
  ambient_reflect_color : DsRgb
  specular_reflect_color : DsRgb
  emission_color : DsRgb
  deriving Repr, DecidableEq

/-- `AreaLightBlock::default()`: zeroed times and colors, absent
lights. -/
def blockDefault : AreaLightBlock :=
  { end_time := 0, light_0 := none, light_1 := none, light_2 := none,
    light_3 := none, diffuse_reflect_color := ⟨0, 0, 0⟩,
    ambient_reflect_color := ⟨0, 0, 0⟩, specular_reflect_color := ⟨0, 0, 0⟩,
    emission_color := ⟨0, 0, 0⟩ }

/-- `AreaLight`. -/
structure AreaLight where
  blocks : List AreaLightBlock
  deriving Repr, DecidableEq

/-- Rust `str::split(sep)` on character lists: splits at every separator,
keeping empty pieces, and yields `[[]]` on the empty string. -/
def splitOn (sep : Char) : List Char → List (List Char)
  | [] => [[]]
  | c :: cs =>
    if c = sep then [] :: splitOn sep cs
    else
      match splitOn sep cs with
      | [] => [[c]]
      | h :: t => (c :: h) :: t

/-- Strips one trailing carriage return, as `str::lines` does from lines
that ended in `\r\n`. -/
def stripTrailingCR : List Char → List Char
  | [] => []
  | ['\r'] => []
  | c :: cs => c :: stripTrailingCR cs

/-- The trailing behavior of `str::lines`: the final piece keeps a lone
`\r` (it was not followed by `\n`) and is dropped when empty. -/
def rustLinesAux : List (List Char) → List (List Char)
  | [] => []
  | [last] => if last = [] then [] else [last]
  | piece :: rest => stripTrailingCR piece :: rustLinesAux rest

/-- Rust `str::lines` on character lists. -/
def rustLines (cs : List Char) : List (List Char) :=
  rustLinesAux (splitOn '\n' cs)

/-- Decimal digit value of a character. -/
def digitVal (c : Char) : Option Nat :=
  if '0' ≤ c ∧ c ≤ '9' then some (c.toNat - 48) else none

/-- Accumulates decimal digits; fails on any non-digit. -/
def parseDigitsAux : List Char → Nat → Option Nat
  | [], acc => some acc
  | c :: cs, acc =>
    match digitVal c with
    | none => none
    | some d => parseDigitsAux cs (acc * 10 + d)

/-- A non-empty all-digit run, as required by Rust's integer `parse`
after the optional sign. -/
def parseDigits : List Char → Option Nat
  | [] => none
  | c :: cs => parseDigitsAux (c :: cs) 0

/-- Rust `str::parse::<uN>`: optional leading `+`, then digits; overflow
past `bound` is a parse error. -/
def rustParseUnsigned (bound : Nat) (s : List Char) : Option Nat :=
  let t := match s with
    | '+' :: rest => rest
    | _ => s
  match parseDigits t with
  | none => none
  | some v => if v < bound then some v else none

/-- Rust `str::parse::<i16>`: optional sign, digits, range
`[-32768, 32767]`. -/
def rustParseI16 (s : List Char) : Option Int :=
  match s with
  | '+' :: rest =>
    (parseDigits rest).bind fun v =>
      if v ≤ 32767 then some (v : Int) else none
  | '-' :: rest =>
    (parseDigits rest).bind fun v =>
      if v ≤ 32768 then some (-(v : Int)) else none
  | _ =>
    (parseDigits s).bind fun v =>
      if v ≤ 32767 then some (v : Int) else none

namespace AreaLight

/-- `parse_color_parameters`: takes three `(index, field)` pairs off the
enumerated split iterator, then parses red, green, blue as `u8` in that
order. -/
def parseColorParameters (params : List (Nat × List Char))
    (current_block_line : AreaLightBlockLine) (current_line : Nat) :
    Except AreaLightError (DsRgb × List (Nat × List Char)) :=
  match params with
  | (red_idx, red_val) :: (green_idx, green_val) ::
      (blue_idx, blue_val) :: rest =>
    match rustParseUnsigned 256 red_val with
    | none =>
      .error (.malformedLineParameter current_block_line current_line red_idx)
    | some red =>
      match rustParseUnsigned 256 green_val with
      | none =>
        .error (.malformedLineParameter current_block_line current_line
          green_idx)
      | some green =>
        match rustParseUnsigned 256 blue_val with
        | none =>
          .error (.malformedLineParameter current_block_line current_line
            blue_idx)
        | some blue => .ok ({ red, green, blue }, rest)
  | _ => .error (.notEnoughParameters current_block_line current_line)

/-- `parse_vector_parameters`: three `i16` components wrapped as raw
`DsFixed16` bit patterns. -/
def parseVectorParameters (params : List (Nat × List Char))
    (current_block_line : AreaLightBlockLine) (current_line : Nat) :
    Except AreaLightError (Vec3I × List (Nat × List Char)) :=
  match params with
  | (x_idx, x_val) :: (y_idx, y_val) :: (z_idx, z_val) :: rest =>
    match rustParseI16 x_val with
    | none =>
      .error (.malformedLineParameter current_block_line current_line x_idx)
    | some x =>
      match rustParseI16 y_val with
      | none =>
        .error (.malformedLineParameter current_block_line current_line y_idx)
      | some y =>
        match rustParseI16 z_val with
        | none =>
          .error (.malformedLineParameter current_block_line current_line
            z_idx)
        | some z => .ok ({ x, y, z }, rest)
  | _ => .error (.notEnoughParameters current_block_line current_line)

/-- `parse_light_line`: validity sentinel then color and direction. -/
def parse_light_line (line : List Char)
    (current_block_line : AreaLightBlockLine) (current_line : Nat) :
    Except AreaLightError (Option AreaLightProperties) :=
  match (splitOn ',' line).enum with
  | [] => .error (.notEnoughParameters current_block_line current_line)
  | (_, valid_val) :: parameters =>
    if valid_val ≠ ['1'] then .ok none
    else
      match parseColorParameters parameters current_block_line
          current_line with
      | .error e => .error e
      | .ok (color, parameters) =>
        match parseVectorParameters parameters current_block_line
            current_line with
        | .error e => .error e
        | .ok (direction, _) => .ok (some { color, direction })

/-- `parse_color_line`. -/
def parse_color_line (line : List Char)
    (current_block_line : AreaLightBlockLine) (current_line : Nat) :
    Except AreaLightError DsRgb :=
  match parseColorParameters (splitOn ',' line).enum current_block_line
      current_line with
  | .error e => .error e
  | .ok (color, _) => .ok color

/-- The per-state dispatch of the body of `parse_string`'s loop: parses
one non-empty, non-`"EOF"` line into an updated current block. The
`blockEnd` arm is the `_ => Err(BlockParseOverrun)` arm of the source. -/
def stepLine (line : List Char) (i : Nat) (current_block : AreaLightBlock) :
    AreaLightBlockLine → Except AreaLightError AreaLightBlock
  | .endTime =>
    match splitOn ',' line with
    | [] => .error (.malformedBlockLine .endTime i)
    | end_time_val :: _ =>
      match rustParseUnsigned (2 ^ 32) end_time_val with
      | none => .error (.malformedLineParameter .endTime i 0)
      | some v => .ok { current_block with end_time := v }
  | .light0 =>
    (parse_light_line line .light0 i).map fun l =>
      { current_block with light_0 := l }
  | .light1 =>
    (parse_light_line line .light1 i).map fun l =>
      { current_block with light_1 := l }
  | .light2 =>
    (parse_light_line line .light2 i).map fun l =>
      { current_block with light_2 := l }
  | .light3 =>
    (parse_light_line line .light3 i).map fun l =>
      { current_block with light_3 := l }
  | .diffuseReflectColor =>
    (parse_color_line line .diffuseReflectColor i).map fun c =>
      { current_block with diffuse_reflect_color := c }
  | .ambientReflectColor =>
    (parse_color_line line .ambientReflectColor i).map fun c =>
      { current_block with ambient_reflect_color := c }
  | .specularReflectColor =>
    (parse_color_line line .specularReflectColor i).map fun c =>
      { current_block with specular_reflect_color := c }
  | .emissionColor =>
    (parse_color_line line .emissionColor i).map fun c =>
      { current_block with emission_color := c }
  | .blockEnd => .error .blockParseOverrun

/-- The line loop of `AreaLight::parse_string`: empty lines are skipped
only between blocks, `"EOF"` stops with success, and a completed block is
appended with the machine reset. -/
def parseLoop : List (List Char) → Nat → AreaLightBlock →
    AreaLightBlockLine → List AreaLightBlock →
    Except AreaLightError (List AreaLightBlock)
  | [], _, _, _, blocks => .ok blocks
  | line :: rest, i, current_block, current_block_line, blocks =>
    if line = [] then
      if current_block_line = .endTime then
        parseLoop rest (i + 1) current_block current_block_line blocks
      else .error (.earlyEmptyLine i)
    else if line = ['E', 'O', 'F'] then .ok blocks
    else
      match stepLine line i current_block current_block_line with
      | .error e => .error e
      | .ok current_block =>
        let next_line := current_block_line.next
        if next_line = .blockEnd then
          parseLoop rest (i + 1) blockDefault .endTime
            (blocks ++ [current_block])
        else parseLoop rest (i + 1) current_block next_line blocks

/-- `AreaLight::parse_string`. -/
def parse_string (s : List Char) : Except AreaLightError AreaLight :=
  (parseLoop (rustLines s) 0 blockDefault .endTime []).map
    fun blocks => { blocks }

/-- The clamp of `fix_light`: `clamp(DsFixed16::NEG_ONE, DsFixed16::ONE)`
on raw bit patterns, i.e. to `[-4096, 4096]`. -/
def clampFixed16 (x : Int) : Int := min 4096 (max (-4096) x)

/-- `AreaLight::fix_light`. -/
def fix_light (light : AreaLightProperties) : AreaLightProperties :=
  { light with
    direction := { x := clampFixed16 light.direction.x
                   y := clampFixed16 light.direction.y
                   z := clampFixed16 light.direction.z } }

/-- `AreaLight::fix`: clamps the direction of every present light of
every block. -/
def fix (al : AreaLight) : AreaLight :=
  { blocks := al.blocks.map fun block =>
      { block with
        light_0 := block.light_0.map fix_light
        light_1 := block.light_1.map fix_light
        light_2 := block.light_2.map fix_light
        light_3 := block.light_3.map fix_light } }

/-- `parse_color_parameters` only reports malformed-parameter or
not-enough-parameters errors. -/
theorem parseColorParameters_err (params : List (Nat × List Char))
    (cbl : AreaLightBlockLine) (i : Nat) (e : AreaLightError)
    (h : parseColorParameters params cbl i = .error e) :
    e ≠ .blockParseOverrun := by
  unfold parseColorParameters at h
  split at h <;>
    [skip; (injection h with h; subst h; simp)]
  split at h <;>
    [(injection h with h; subst h; simp); skip]
  split at h <;>
    [(injection h with h; subst h; simp); skip]
  split at h <;>
    [(injection h with h; subst h; simp); cases h]

/-- `parse_vector_parameters` only reports malformed-parameter or
not-enough-parameters errors. -/
theorem parseVectorParameters_err (params : List (Nat × List Char))
    (cbl : AreaLightBlockLine) (i : Nat) (e : AreaLightError)
    (h : parseVectorParameters params cbl i = .error e) :
    e ≠ .blockParseOverrun := by
  unfold parseVectorParameters at h
  split at h <;>
    [skip; (injection h with h; subst h; simp)]
  split at h <;>
    [(injection h with h; subst h; simp); skip]
  split at h <;>
    [(injection h with h; subst h; simp); skip]
  split at h <;>
    [(injection h with h; subst h; simp); cases h]

/-- `parse_light_line` never reports the overrun error. -/
theorem parse_light_line_err (line : List Char) (cbl : AreaLightBlockLine)
    (i : Nat) (e : AreaLightError)
    (h : parse_light_line line cbl i = .error e) :
    e ≠ .blockParseOverrun := by
  unfold parse_light_line at h
  split at h
  · injection h with h
    subst h
    simp
  · split at h
    · cases h
    · split at h
      · injection h with h
        subst h
        exact parseColorParameters_err _ _ _ _ (by assumption)
      · split at h
        · injection h with h
          subst h
          exact parseVectorParameters_err _ _ _ _ (by assumption)
        · cases h

/-- `parse_color_line` never reports the overrun error. -/
theorem parse_color_line_err (line : List Char) (cbl : AreaLightBlockLine)
    (i : Nat) (e : AreaLightError)
    (h : parse_color_line line cbl i = .error e) :
    e ≠ .blockParseOverrun := by
  unfold parse_color_line at h
  split at h
  · injection h with h
    subst h
    exact parseColorParameters_err _ _ _ _ (by assumption)
  · cases h

/-- In every state other than `End`, the dispatch never reports the
overrun error. -/
theorem stepLine_err (line : List Char) (i : Nat) (cb : AreaLightBlock)
    (st : AreaLightBlockLine) (hst : st ≠ .blockEnd) (e : AreaLightError)
    (h : stepLine line i cb st = .error e) : e ≠ .blockParseOverrun := by
  cases st with
  | endTime =>
    simp only [stepLine] at h
    split at h
    · injection h with h
      subst h
      simp
    · split at h
      · injection h with h
        subst h
        simp
      · cases h
  | light0 =>
    simp only [stepLine] at h
    cases hp : parse_light_line line .light0 i with
    | error e2 =>
      rw [hp] at h
      injection h with h
      subst h
      exact parse_light_line_err _ _ _ _ hp
    | ok v => rw [hp] at h; cases h
  | light1 =>
    simp only [stepLine] at h
    cases hp : parse_light_line line .light1 i with
    | error e2 =>
      rw [hp] at h
      injection h with h
      subst h
      exact parse_light_line_err _ _ _ _ hp
    | ok v => rw [hp] at h; cases h
  | light2 =>
    simp only [stepLine] at h
    cases hp : parse_light_line line .light2 i with
    | error e2 =>
      rw [hp] at h
      injection h with h
      subst h
      exact parse_light_line_err _ _ _ _ hp
    | ok v => rw [hp] at h; cases h
  | light3 =>
    simp only [stepLine] at h
    cases hp : parse_light_line line .light3 i with
    | error e2 =>
      rw [hp] at h
      injection h with h
      subst h
      exact parse_light_line_err _ _ _ _ hp
    | ok v => rw [hp] at h; cases h
  | diffuseReflectColor =>
    simp only [stepLine] at h
    cases hp : parse_color_line line .diffuseReflectColor i with
    | error e2 =>
      rw [hp] at h
      injection h with h
      subst h
      exact parse_color_line_err _ _ _ _ hp
    | ok v => rw [hp] at h; cases h
  | ambientReflectColor =>
    simp only [stepLine] at h
    cases hp : parse_color_line line .ambientReflectColor i with
    | error e2 =>
      rw [hp] at h
      injection h with h
      subst h
      exact parse_color_line_err _ _ _ _ hp
    | ok v => rw [hp] at h; cases h
  | specularReflectColor =>
    simp only [stepLine] at h
    cases hp : parse_color_line line .specularReflectColor i with
    | error e2 =>
      rw [hp] at h
      injection h with h
      subst h
      exact parse_color_line_err _ _ _ _ hp
    | ok v => rw [hp] at h; cases h
  | emissionColor =>
    simp only [stepLine] at h
    cases hp : parse_color_line line .emissionColor i with
    | error e2 =>
      rw [hp] at h
      injection h with h
      subst h
      exact parse_color_line_err _ _ _ _ hp
    | ok v => rw [hp] at h; cases h
  | blockEnd => exact absurd rfl hst

/-- The loop invariant behind C9: entered in any state other than `End`,
the loop can never surface `BlockParseOverrun`. -/
theorem parseLoop_no_overrun (lines : List (List Char)) :
    ∀ (i : Nat) (cb : AreaLightBlock) (st : AreaLightBlockLine)
      (blocks : List AreaLightBlock), st ≠ .blockEnd →
      parseLoop lines i cb st blocks ≠ .error .blockParseOverrun := by
  induction lines with
  | nil =>
    intro i cb st blocks hst h
    cases h
  | cons line rest ih =>
    intro i cb st blocks hst h
    rw [parseLoop] at h
    by_cases hemp : line = []
    · rw [if_pos hemp] at h
      by_cases hst2 : st = .endTime
      · rw [if_pos hst2] at h
        exact ih (i + 1) cb st blocks hst h
      · rw [if_neg hst2] at h
        cases h
    · rw [if_neg hemp] at h
      by_cases heof : line = ['E', 'O', 'F']
      · rw [if_pos heof] at h
        cases h
      · rw [if_neg heof] at h
        cases hs : stepLine line i cb st with
        | error e =>
          rw [hs] at h
          injection h with h
          exact stepLine_err line i cb st hst e hs h
        | ok cb2 =>
          rw [hs] at h
          dsimp only at h
          by_cases hnext : st.next = .blockEnd
          · rw [if_pos hnext] at h
            exact ih (i + 1) blockDefault .endTime (blocks ++ [cb2])
              (by decide) h
          · rw [if_neg hnext] at h
            exact ih (i + 1) cb2 st.next blocks hnext h

end AreaLight

end Sinjoh

namespace Sinjoh

/-- C1: for every NARC archive whose header contains a FATB and a FIMG
chunk, and for every member index `i` in `[0, count)` whose FAT entry is
well-formed (`start ≤ end`, `end` a `u32`) and covered by the underlying
file, `get_file i` returns a byte vector of length
`fat[i].end_address - fat[i].start_address`, and the immediately repeated
call on the reader returned by the first call yields the identical byte
vector (the member read depends only on the file data and the header, not
on the handle's position). -/
theorem c1_narc_get_file_length_deterministic
    (r : NarcReader) (i : Nat) (fat : NarcFileAllocationTableBlock)
    (fimg : NarcFileImageBlock) (e : NarcFileAllocationTableEntry)
    (hfat : r.narc_header.fat = some fat)
    (himg : r.narc_header.files = some fimg)
    (hcount : fat.number_of_files = fat.files.length)
    (hi : i < fat.number_of_files)
    (he : fat.files.get? i = some e)
    (hle : e.start_address ≤ e.end_address)
    (hlt : e.end_address < 2 ^ 32)
    (hdata : fimg.img_position + e.end_address ≤ r.data.length) :
    ∃ bs, (NarcReader.get_file r i).1 = .ok bs ∧
      bs.length = e.end_address - e.start_address ∧
      (NarcReader.get_file (NarcReader.get_file r i).2 i).1 = .ok bs := by
  have hsz : (e.end_address + 2 ^ 32 - e.start_address) % 2 ^ 32 =
      e.end_address - e.start_address := by
    have h1 : e.end_address + 2 ^ 32 - e.start_address =
        (e.end_address - e.start_address) + 2 ^ 32 := by omega
    rw [h1, Nat.add_mod_right, Nat.mod_eq_of_lt (by omega)]
  have hread : readBytes r.data (fimg.img_position + e.start_address)
      (e.end_address - e.start_address) =
      some ((r.data.drop (fimg.img_position + e.start_address)).take
        (e.end_address - e.start_address)) := by
    unfold readBytes
    rw [if_pos (by omega)]
  refine ⟨(r.data.drop (fimg.img_position + e.start_address)).take
      (e.end_address - e.start_address), ?_, ?_, ?_⟩
  · simp only [NarcReader.get_file, hfat, he, himg, hsz, hread]
  · rw [List.length_take, List.length_drop]
    omega
  · simp only [NarcReader.get_file, hfat, he, himg, hsz, hread]

/-- A concrete reader state used to witness C1: four file bytes, a FATB
with one entry `[1, 3)` and an image block starting at byte 1. -/
def c1ExampleReader : NarcReader :=
  { data := [0xDE, 0xAD, 0xBE, 0xEF], pos := 0,
    narc_header :=
      { byte_order := some true, version := 0x0100, file_size := 0x40,
        narc_header_size := 0x10, number_of_chunks := 3,
        fat := some { chunk_size := 20, number_of_files := 1,
                      files := [{ start_address := 1, end_address := 3 }] },
        fnt := some 8,
        files := some { chunk_size := 12, img_position := 1 } } }

/-- Witness for C1: a concrete two-byte member read out of a concrete
reader state. -/
theorem c1_narc_get_file_witness :
    ∃ bs, (NarcReader.get_file c1ExampleReader 0).1 = .ok bs ∧
      bs.length = 3 - 1 ∧
      (NarcReader.get_file (NarcReader.get_file c1ExampleReader 0).2 0).1 =
        .ok bs :=
  c1_narc_get_file_length_deterministic c1ExampleReader 0 _ _ _ rfl rfl rfl
    (by decide) rfl (by decide) (by decide) (by decide)

/-- The 16 bytes of the C5 scenario: BDHC magic `44 42 48 43` followed by
the 12 header bytes `02 00 01 00 01 00 01 00 01 00 01 00`. -/
def c5HeaderOnlyBytes : List Nat :=
  [0x44, 0x42, 0x48, 0x43, 2, 0, 1, 0, 1, 0, 1, 0, 1, 0, 1, 0]

/-- C5 counterexample: `Bdhc::parse_bytes` applied to the byte sequence
`44 42 48 43` + 12 header bytes does NOT succeed: those four bytes read
little-endian give `0x43484244`, not the required `0x43484442` ("BDHC" on
disk is `42 44 48 43`), so the decoder rejects the magic. -/
theorem c5_bdhc_header_only_counterexample :
    Bdhc.parse_bytes c5HeaderOnlyBytes =
      .error (.wrongBdhcMagic 0x43484244) := by decide

/-- C5 amended: with the correct magic byte order `42 44 48 43`,
`BdhcHeader::from_bytes` on the 12 header bytes yields counts points=2,
normals=1, constants=1, plates=1, strips=1, access_list=1 — and
`Bdhc::parse_bytes` succeeds with sections of exactly those lengths once
the 50 bytes of declared section payload follow the header (on the magic
and header alone it would stop with a read error at the points
section). -/
theorem c5_bdhc_header_counts :
    (BdhcHeader.from_bytes [2, 0, 1, 0, 1, 0, 1, 0, 1, 0, 1, 0] =
      { points_count := 2, normals_count := 1, constants_count := 1,
        plates_count := 1, strips_count := 1, access_list_count := 1 }) ∧
    ((Bdhc.parse_bytes
        ([0x42, 0x44, 0x48, 0x43, 2, 0, 1, 0, 1, 0, 1, 0, 1, 0, 1, 0] ++
          List.replicate 50 0)).toOption.map
        fun b => (b.points.length, b.normals.length, b.constants.length,
          b.plates.length, b.strips.length, b.access_list.length)) =
      some (2, 1, 1, 1, 1, 1) ∧
    Bdhc.parse_bytes
        [0x42, 0x44, 0x48, 0x43, 2, 0, 1, 0, 1, 0, 1, 0, 1, 0, 1, 0] =
      .error .readError := by decide

/-- A land-data buffer whose header declares a terrain-attributes section
of 2 bytes (one entry), no props, no model, and a 16-byte BDHC section
holding the magic and an all-zero count header. -/
def c2CounterexampleBytes : List Nat :=
  [2, 0, 0, 0, 0, 0, 0, 0, 0, 0, 0, 0, 16, 0, 0, 0] ++
    [0, 0] ++
    [0x42, 0x44, 0x48, 0x43] ++ List.replicate 12 0

/-- The record `LandData::parse_bytes` produces on
`c2CounterexampleBytes`. -/
def c2ExampleLandData : LandData :=
  { terrain_attributes := [{ tile_behavior := 0, has_collision := false }]
    map_props := []
    map_model := []
    bdhc := { points := [], normals := [], constants := [], plates := [],
              strips := [], access_list := [] } }

/-- C2 counterexample: `LandData::parse_bytes` succeeds on a buffer whose
16-byte header declares a 2-byte terrain section, and the resulting
`terrain_attributes` vector has length 1, not 1024. -/
theorem c2_terrain_1024_counterexample :
    LandData.parse_bytes c2CounterexampleBytes = .ok c2ExampleLandData ∧
      c2ExampleLandData.terrain_attributes.length ≠ 1024 := by decide

/-- C2 amended: for every byte buffer on which `LandData::parse_bytes`
succeeds, the `terrain_attributes` vector has length
`terrain_attributes_size / 2` where `terrain_attributes_size` is the
little-endian `u32` at offset 0 of the 16-byte header (1024 only when the
header declares the usual 2048-byte section). -/
theorem c2_terrain_length_matches_header (bytes : List Nat) (ts : Nat)
    (ld : LandData)
    (hts : readU32 bytes 0 = some ts)
    (h : LandData.parse_bytes bytes = .ok ld) :
    ld.terrain_attributes.length = ts / 2 := by
  unfold LandData.parse_bytes at h
  rw [hts] at h
  dsimp only at h
  cases h4 : readU32 bytes 4 with
  | none => rw [h4] at h; exact Except.noConfusion h
  | some ps =>
    rw [h4] at h
    dsimp only at h
    cases h8 : readU32 bytes 8 with
    | none => rw [h8] at h; exact Except.noConfusion h
    | some ms =>
      rw [h8] at h
      dsimp only at h
      cases h12 : readU32 bytes 12 with
      | none => rw [h12] at h; exact Except.noConfusion h
      | some bsz =>
        rw [h12] at h
        dsimp only at h
        cases hterr : readN LandData.readTerrainElem bytes
            (ts / TERRAIN_ATTRIBUTES_ELEM_SIZE) LAND_DATA_HEADER_SIZE with
        | none => rw [hterr] at h; exact Except.noConfusion h
        | some tp =>
          obtain ⟨terrain, p1⟩ := tp
          rw [hterr] at h
          dsimp only at h
          cases hprops : readN LandData.readMapPropElem bytes
              (ps / MAP_PROPS_ELEM_SIZE) (LAND_DATA_HEADER_SIZE + ts) with
          | none => rw [hprops] at h; exact Except.noConfusion h
          | some pp =>
            obtain ⟨props, p2⟩ := pp
            rw [hprops] at h
            dsimp only at h
            cases hmodel : readBytes bytes
                (LAND_DATA_HEADER_SIZE + ts + ps) ms with
            | none => rw [hmodel] at h; exact Except.noConfusion h
            | some model =>
              rw [hmodel] at h
              dsimp only at h
              cases hbd : readBytes bytes
                  (LAND_DATA_HEADER_SIZE + ts + ps + ms) bsz with
              | none => rw [hbd] at h; exact Except.noConfusion h
              | some rawb =>
                rw [hbd] at h
                dsimp only at h
                cases hparse : Bdhc.parse_bytes rawb with
                | error e => rw [hparse] at h; exact Except.noConfusion h
                | ok bd =>
                  rw [hparse] at h
                  dsimp only at h
                  have hlen := readN_length LandData.readTerrainElem bytes
                    (ts / TERRAIN_ATTRIBUTES_ELEM_SIZE) LAND_DATA_HEADER_SIZE
                    terrain p1 hterr
                  cases h
                  exact hlen

/-- Witness for C2's amended theorem: applied to the concrete buffer whose
header declares a 2-byte terrain section. -/
theorem c2_terrain_length_matches_header_witness :
    c2ExampleLandData.terrain_attributes.length = 2 / 2 :=
  c2_terrain_length_matches_header c2CounterexampleBytes 2 c2ExampleLandData
    (by decide) (by decide)

/-- A material-shapes buffer with one locator `(count=1, index=0)` and a
two-entry flat ids table `[(5,6), (7,8)]`: parsing succeeds but the single
non-empty locator only covers the first table entry. -/
def c3CounterexampleBytes : List Nat :=
  [1, 0, 2, 0, 1, 0, 0, 0, 5, 0, 6, 0, 7, 0, 8, 0]

/-- C3 counterexample: a successfully parsed input whose flat ids table is
`[(5,6), (7,8)]` while the concatenation of the non-empty locator outputs
is only `[(5,6)]` — the union of the slices does not equal the original
table when the locators do not tile it. -/
theorem c3_union_counterexample :
    MapPropMaterialShapes.parse_bytes c3CounterexampleBytes =
      .ok [some { ids_index := 0, ids := [{ material_id := 5, shape_id := 6 }] }] ∧
    readN MapPropMaterialShapes.readIdsElem c3CounterexampleBytes 2 8 =
      some ([{ material_id := 5, shape_id := 6 },
             { material_id := 7, shape_id := 8 }], 16) ∧
    MapPropMaterialShapes.joinedIds
        [some { ids_index := 0, ids := [{ material_id := 5, shape_id := 6 }] }] ≠
      [{ material_id := 5, shape_id := 6 }, { material_id := 7, shape_id := 8 }] := by
  decide

/-- C3 amended: for every input on which `parse_bytes` succeeds AND whose
locator table tiles the flat ids table in order (each non-empty locator
starts exactly where the previous coverage ended and the coverage ends at
the table length), the concatenation of the `ids` slices of the non-empty
locator outputs equals the original flat ids table; and — for every
successfully parsed input, tiling or not — a locator produces an absent
(`None`) entry exactly when its count is 0. -/
theorem c3_union_of_tiling_locators (bytes : List Nat) (lc ic : Nat)
    (locs : List MapPropMaterialShapesLocators)
    (ids : List MapPropMaterialShapesIDs) (p1 p2 : Nat)
    (h0 : readU16 bytes 0 = some lc)
    (h2 : readU16 bytes 2 = some ic)
    (hlocs : readN MapPropMaterialShapes.readLocatorElem bytes lc 4 =
      some (locs, p1))
    (hids : readN MapPropMaterialShapes.readIdsElem bytes ic p1 =
      some (ids, p2))
    (htile : MapPropMaterialShapes.tilesFrom locs 0 ids.length = true) :
    ∃ out, MapPropMaterialShapes.parse_bytes bytes = .ok out ∧
      MapPropMaterialShapes.joinedIds out = ids ∧
      out.map Option.isNone = locs.map (fun l => l.ids_count == 0) := by
  obtain ⟨out, hb, hj⟩ := MapPropMaterialShapes.build_tiles ids locs 0 htile
  refine ⟨out, ?_, by simpa using hj,
    MapPropMaterialShapes.build_isNone_map ids locs out hb⟩
  unfold MapPropMaterialShapes.parse_bytes
  rw [h0]
  dsimp only
  rw [h2]
  dsimp only
  rw [hlocs]
  dsimp only
  rw [hids]
  dsimp only
  rw [hb]

/-- The spec's material-shapes scenario: locators
`[(0,0), (2,0), (1,2)]` over the ids table `[(5,6), (7,8), (9,10)]`. -/
def c3ExampleBytes : List Nat :=
  [3, 0, 3, 0,
   0, 0, 0, 0, 2, 0, 0, 0, 1, 0, 2, 0,
   5, 0, 6, 0, 7, 0, 8, 0, 9, 0, 10, 0]

/-- Witness for C3's amended theorem at the spec's scenario input. -/
theorem c3_union_of_tiling_locators_witness :
    ∃ out, MapPropMaterialShapes.parse_bytes c3ExampleBytes = .ok out ∧
      MapPropMaterialShapes.joinedIds out =
        [{ material_id := 5, shape_id := 6 },
         { material_id := 7, shape_id := 8 },
         { material_id := 9, shape_id := 10 }] ∧
      out.map Option.isNone =
        ([{ ids_count := 0, ids_index := 0 },
          { ids_count := 2, ids_index := 0 },
          { ids_count := 1, ids_index := 2 }] :
            List MapPropMaterialShapesLocators).map
          (fun l => l.ids_count == 0) :=
  c3_union_of_tiling_locators c3ExampleBytes 3 3
    [{ ids_count := 0, ids_index := 0 }, { ids_count := 2, ids_index := 0 },
     { ids_count := 1, ids_index := 2 }]
    [{ material_id := 5, shape_id := 6 }, { material_id := 7, shape_id := 8 },
     { material_id := 9, shape_id := 10 }]
    16 28 (by decide) (by decide) (by decide) (by decide) (by decide)

/-- A material-shapes buffer whose single locator `(count=1, index=2)`
points past its one-entry ids table. -/
def c10PanicBytes : List Nat :=
  [1, 0, 1, 0, 1, 0, 2, 0, 0xAA, 0, 0xBB, 0]

/-- C10: when every parsed locator with positive count stays inside the
ids table, `MapPropMaterialShapes::parse_bytes` never panics (it returns
the projected list or a read error); and on a concrete input whose
locator points past the table, the unchecked slice
`ids[start_index ..= end_index]` panics instead of returning an error. -/
theorem c10_mpms_panic_iff_bounds :
    (∀ (bytes : List Nat),
      (∀ (lc ic : Nat) (locs : List MapPropMaterialShapesLocators)
        (ids : List MapPropMaterialShapesIDs) (p1 p2 : Nat),
        readU16 bytes 0 = some lc → readU16 bytes 2 = some ic →
        readN MapPropMaterialShapes.readLocatorElem bytes lc 4 =
          some (locs, p1) →
        readN MapPropMaterialShapes.readIdsElem bytes ic p1 =
          some (ids, p2) →
        ∀ l ∈ locs, 0 < l.ids_count →
          l.ids_index + l.ids_count ≤ ids.length) →
      MapPropMaterialShapes.parse_bytes bytes ≠ .panicked) ∧
    MapPropMaterialShapes.parse_bytes c10PanicBytes = .panicked := by
  refine ⟨?_, by decide⟩
  intro bytes hpre hcon
  unfold MapPropMaterialShapes.parse_bytes at hcon
  cases h0 : readU16 bytes 0 with
  | none => rw [h0] at hcon; exact MpmsOutcome.noConfusion hcon
  | some lc =>
    rw [h0] at hcon
    dsimp only at hcon
    cases h2 : readU16 bytes 2 with
    | none => rw [h2] at hcon; exact MpmsOutcome.noConfusion hcon
    | some ic =>
      rw [h2] at hcon
      dsimp only at hcon
      cases hl : readN MapPropMaterialShapes.readLocatorElem bytes lc 4 with
      | none => rw [hl] at hcon; exact MpmsOutcome.noConfusion hcon
      | some lp =>
        obtain ⟨locs, p1⟩ := lp
        rw [hl] at hcon
        dsimp only at hcon
        cases hi : readN MapPropMaterialShapes.readIdsElem bytes ic p1 with
        | none => rw [hi] at hcon; exact MpmsOutcome.noConfusion hcon
        | some ip =>
          obtain ⟨ids, p2⟩ := ip
          rw [hi] at hcon
          dsimp only at hcon
          obtain ⟨out, hb⟩ := MapPropMaterialShapes.build_isSome_of_bounds
            ids locs (hpre lc ic locs ids p1 p2 h0 h2 hl hi)
          rw [hb] at hcon
          exact MpmsOutcome.noConfusion hcon

/-- Witness for C10's no-panic direction at the spec's tiling scenario
input. -/
theorem c10_mpms_no_panic_witness :
    MapPropMaterialShapes.parse_bytes c3ExampleBytes ≠ .panicked := by
  refine c10_mpms_panic_iff_bounds.1 c3ExampleBytes ?_
  intro lc ic locs ids p1 p2 h0 h2 hl hi
  have h0' : some 3 = some lc := h0
  cases h0'
  have h2' : some 3 = some ic := h2
  cases h2'
  have hl' : some (([{ ids_count := 0, ids_index := 0 },
      { ids_count := 2, ids_index := 0 },
      { ids_count := 1, ids_index := 2 }] :
        List MapPropMaterialShapesLocators), 16) = some (locs, p1) := hl
  simp only [Option.some.injEq, Prod.mk.injEq] at hl'
  obtain ⟨hl1, hp1⟩ := hl'
  subst hl1
  subst hp1
  have hi' : some (([{ material_id := 5, shape_id := 6 },
      { material_id := 7, shape_id := 8 },
      { material_id := 9, shape_id := 10 }] :
        List MapPropMaterialShapesIDs), 28) = some (ids, p2) := hi
  simp only [Option.some.injEq, Prod.mk.injEq] at hi'
  obtain ⟨hi1, -⟩ := hi'
  subst hi1
  decide

/-- C4 counterexample: the raw value 33554433 (= 2^25 + 1, parsed from the
little-endian bytes `01 00 00 02`) is a representable `raw_i32`, but its
quotient 33554433/4096 is NOT representable in binary32 (it needs 26
significant bits), so no `f32` result of the conversion can equal
`raw_i32 / 4096.0` exactly. -/
theorem c4_exact_division_counterexample :
    fixed32At [0x01, 0x00, 0x00, 0x02] 0 = 33554433 ∧
      ¬ float32Representable (dsFixed32ToRat 33554433) := by
  constructor
  · decide
  · rintro ⟨m, e, hm, -, -, heq⟩
    have key : (m : ℚ) * 2 ^ (e + 12) = 33554433 := by
      rw [zpow_add₀ (by norm_num : (2 : ℚ) ≠ 0), ← mul_assoc, ← heq]
      norm_num [dsFixed32ToRat]
    have habs := abs_lt.mp hm
    rcases le_or_lt 0 (e + 12) with hs | hs
    · obtain ⟨k, hk⟩ := Int.eq_ofNat_of_zero_le hs
      rw [hk] at key
      have keyz : m * 2 ^ k = 33554433 := by exact_mod_cast key
      rcases k with _ | j
      · simp at keyz
        omega
      · have hdvd : (2 : ℤ) ∣ 33554433 := ⟨m * 2 ^ j, by rw [← keyz]; ring⟩
        norm_num at hdvd
    · obtain ⟨k, hk, hk1⟩ : ∃ k : Nat, e + 12 = -(k : ℤ) ∧ 1 ≤ k :=
        ⟨(-(e + 12)).toNat, by omega, by omega⟩
      rw [hk, zpow_neg, ← div_eq_mul_inv,
        div_eq_iff (by positivity : ((2 : ℚ) ^ (k : ℤ)) ≠ 0)] at key
      have keyz : m = 33554433 * 2 ^ k := by exact_mod_cast key
      have h2k : (2 : ℤ) ≤ 2 ^ k := by
        calc (2 : ℤ) = 2 ^ 1 := by norm_num
        _ ≤ 2 ^ k := pow_le_pow_right (by norm_num) hk1
      nlinarith [habs.1, habs.2]

/-- C4 amended: for every raw value with `|raw| ≤ 2^24` (in particular
all raw patterns whose quotient fits in the 24-bit binary32 significand),
`raw / 4096` is exactly representable in binary32, so the (correctly
rounding) conversion to `f32` equals `raw_i32 / 4096.0` exactly; the
exactness claimed for EVERY `raw_i32` fails for larger magnitudes. -/
theorem c4_to_float_exact_small (raw : Int)
    (h1 : -(2 ^ 24) ≤ raw) (h2 : raw ≤ 2 ^ 24) :
    float32Representable (dsFixed32ToRat raw) := by
  have hp12 : ((2 : ℚ)) ^ (-12 : ℤ) = (4096 : ℚ)⁻¹ := by
    rw [zpow_neg]
    norm_num
  have hp11 : ((2 : ℚ)) ^ (-11 : ℤ) = (2048 : ℚ)⁻¹ := by
    rw [zpow_neg]
    norm_num
  by_cases hbig : raw = 2 ^ 24 ∨ raw = -(2 ^ 24)
  · refine ⟨raw / 2, -11, ?_, by norm_num, by norm_num, ?_⟩
    · rcases hbig with h | h <;> rw [h] <;> decide
    · rcases hbig with h | h <;> rw [h] <;>
        rw [dsFixed32ToRat, hp11] <;> norm_num
  · push_neg at hbig
    refine ⟨raw, -12, by rw [abs_lt]; omega, by norm_num, by norm_num, ?_⟩
    rw [dsFixed32ToRat, hp12, div_eq_mul_inv]

/-- Witness for C4's amended theorem at raw = 4096 (value 1.0). -/
theorem c4_to_float_exact_small_witness :
    float32Representable (dsFixed32ToRat 4096) :=
  c4_to_float_exact_small 4096 (by norm_num) (by norm_num)

/-- C6: in the area-light line loop, a line literally equal to `"EOF"`
terminates parsing successfully in any state (returning the blocks
collected so far); an empty line is skipped exactly when the machine is
between blocks (`EndTime` state); and an empty line in any other state
fails with `EarlyEmptyLine` carrying that line's number. -/
theorem c6_eof_and_empty_line_dispatch (rest : List (List Char)) (i : Nat)
    (cb : AreaLightBlock) (st : AreaLightBlockLine)
    (blocks : List AreaLightBlock) :
    (AreaLight.parseLoop (['E', 'O', 'F'] :: rest) i cb st blocks =
      .ok blocks) ∧
    (st = .endTime →
      AreaLight.parseLoop ([] :: rest) i cb st blocks =
        AreaLight.parseLoop rest (i + 1) cb st blocks) ∧
    (st ≠ .endTime →
      AreaLight.parseLoop ([] :: rest) i cb st blocks =
        .error (.earlyEmptyLine i)) := by
  refine ⟨?_, ?_, ?_⟩
  · rw [AreaLight.parseLoop, if_neg (by decide), if_pos rfl]
  · intro h
    rw [AreaLight.parseLoop, if_pos rfl, if_pos h]
  · intro h
    rw [AreaLight.parseLoop, if_pos rfl, if_neg h]

/-- Witness for C6 at concrete loop configurations: `"EOF"` mid-block,
an empty line between blocks, and an empty line mid-block. -/
theorem c6_eof_and_empty_line_dispatch_witness :
    (AreaLight.parseLoop [['E', 'O', 'F']] 7 blockDefault .light2 [] =
      .ok []) ∧
    (AreaLight.parseLoop [[]] 0 blockDefault .endTime [] =
      AreaLight.parseLoop [] 1 blockDefault .endTime []) ∧
    (AreaLight.parseLoop [[]] 3 blockDefault .light1 [] =
      .error (.earlyEmptyLine 3)) :=
  ⟨(c6_eof_and_empty_line_dispatch [] 7 blockDefault .light2 []).1,
   (c6_eof_and_empty_line_dispatch [] 0 blockDefault .endTime []).2.1 rfl,
   (c6_eof_and_empty_line_dispatch [] 3 blockDefault .light1 []).2.2
     (by decide)⟩

/-- C9: `AreaLight::parse_string` never returns `BlockParseOverrun`: the
loop is always entered with the machine in a state other than `End` (the
completed-block check replaces `End` by `EndTime` before the next line is
dispatched), so the overrun match arm is unreachable. -/
theorem c9_no_block_parse_overrun (s : List Char) :
    AreaLight.parse_string s ≠ .error .blockParseOverrun := by
  intro h
  unfold AreaLight.parse_string at h
  cases hp : AreaLight.parseLoop (rustLines s) 0 blockDefault .endTime []
      with
  | error e =>
    rw [hp] at h
    injection h with h
    exact AreaLight.parseLoop_no_overrun (rustLines s) 0 blockDefault
      .endTime [] (by decide) (h ▸ hp)
  | ok blocks => rw [hp] at h; cases h

/-- The spec's concrete area-light scenario input. -/
def c7Input : List Char :=
  ("43200\n1,31,31,31,1000,0,0\n0,0,0,0,0,0,0\n0,0,0,0,0,0,0\n" ++
    "0,0,0,0,0,0,0\n10,10,10\n5,5,5\n0,0,0\n0,0,0\nEOF").toList

/-- C7 counterexample: parsing the spec's scenario and applying
`AreaLight::fix` leaves `light_0`'s direction at the raw bit pattern
`(1000, 0, 0)` (value ≈ 0.244), not `(1.0, 0.0, 0.0)` (raw 4096): the
clamp only limits to `[-1.0, 1.0]`, it does not rescale `1000` to
`1.0`. -/
theorem c7_direction_clamp_counterexample :
    ((AreaLight.parse_string c7Input).toOption.map fun al =>
      ((AreaLight.fix al).blocks.map fun b => b.light_0)) =
      some [some { color := { red := 31, green := 31, blue := 31 }
                   direction := { x := 1000, y := 0, z := 0 } }] ∧
    (1000 : Int) ≠ 4096 := by decide

/-- C7 amended: after `AreaLight::fix`, every direction component of
every present light of every block lies in the raw fixed-point interval
`[-4096, 4096]` (that is `[-1.0, +1.0]`); and the light parsed from the
spec's scenario with direction `(1000, 0, 0)` keeps direction
`(1000, 0, 0)` — already inside the interval — rather than becoming
`(1.0, 0.0, 0.0)`. -/
theorem c7_fix_direction_in_range :
    (∀ (al : AreaLight), ∀ b ∈ (AreaLight.fix al).blocks,
      ∀ p : AreaLightProperties,
      (b.light_0 = some p ∨ b.light_1 = some p ∨ b.light_2 = some p ∨
        b.light_3 = some p) →
      -4096 ≤ p.direction.x ∧ p.direction.x ≤ 4096 ∧
      -4096 ≤ p.direction.y ∧ p.direction.y ≤ 4096 ∧
      -4096 ≤ p.direction.z ∧ p.direction.z ≤ 4096) ∧
    ((AreaLight.parse_string c7Input).toOption.map fun al =>
      ((AreaLight.fix al).blocks.map fun b => b.light_0)) =
      some [some { color := { red := 31, green := 31, blue := 31 }
                   direction := { x := 1000, y := 0, z := 0 } }] := by
  constructor
  · intro al b hb p hp
    simp only [AreaLight.fix, List.mem_map] at hb
    obtain ⟨b0, -, rfl⟩ := hb
    have hcl : ∀ q : Option AreaLightProperties,
        q.map AreaLight.fix_light = some p →
        -4096 ≤ p.direction.x ∧ p.direction.x ≤ 4096 ∧
        -4096 ≤ p.direction.y ∧ p.direction.y ≤ 4096 ∧
        -4096 ≤ p.direction.z ∧ p.direction.z ≤ 4096 := by
      intro q hq
      cases q with
      | none => cases hq
      | some r =>
        injection hq with hq
        subst hq
        simp only [AreaLight.fix_light, AreaLight.clampFixed16]
        omega
    rcases hp with hp | hp | hp | hp
    · exact hcl b0.light_0 hp
    · exact hcl b0.light_1 hp
    · exact hcl b0.light_2 hp
    · exact hcl b0.light_3 hp
  · decide

/-- A one-block area light whose only present light has raw direction
`(1000, 0, 0)`. -/
def c7RawAreaLight : AreaLight :=
  { blocks := [{ blockDefault with
      light_0 := some { color := { red := 31, green := 31, blue := 31 }
                        direction := { x := 1000, y := 0, z := 0 } } }] }

/-- Witness for C7's amended theorem: the clamp bounds hold for the
concrete fixed light with direction `(1000, 0, 0)`. -/
theorem c7_fix_direction_in_range_witness :
    -4096 ≤ (1000 : Int) ∧ (1000 : Int) ≤ 4096 ∧
    -4096 ≤ (0 : Int) ∧ (0 : Int) ≤ 4096 ∧
    -4096 ≤ (0 : Int) ∧ (0 : Int) ≤ 4096 :=
  c7_fix_direction_in_range.1 c7RawAreaLight
    ({ blockDefault with
        light_0 := some { color := { red := 31, green := 31, blue := 31 }
                          direction := { x := 1000, y := 0, z := 0 } } })
    (by decide)
    { color := { red := 31, green := 31, blue := 31 }
      direction := { x := 1000, y := 0, z := 0 } }
    (Or.inl (by decide))

/-- C8: `AreaData::from_bytes` reads its four `u16` fields little-endian at
fixed offsets — `map_prop_archives_id` at offset 0, `map_texture_archive_id`
at offset 2, `dummy` at offset 4, `area_light_archive_id` at offset 6 — so
the 8-byte input `01 00 02 00 FF FF 03 00` yields ids (1, 2, 0xFFFF, 3);
moreover on any 8-byte input each field equals the little-endian `u16` at
its documented offset. -/
theorem c8_area_data_offsets :
    (AreaData.from_bytes [0x01, 0x00, 0x02, 0x00, 0xFF, 0xFF, 0x03, 0x00] =
      some { map_prop_archives_id := 1, map_texture_archive_id := 2,
             area_light_archive_id := 3, dummy := 0xFFFF }) ∧
    (∀ b0 b1 b2 b3 b4 b5 b6 b7 : Nat,
      AreaData.from_bytes [b0, b1, b2, b3, b4, b5, b6, b7] =
        some { map_prop_archives_id := u16le b0 b1
               map_texture_archive_id := u16le b2 b3
               area_light_archive_id := u16le b6 b7
               dummy := u16le b4 b5 }) := by
  exact ⟨by decide, fun _ _ _ _ _ _ _ _ => rfl⟩

end Sinjoh
